import Mathlib

/-!
Shallow embedding of the `vernomic` package (files `src/vernomic/vernomic.py`
and `src/vernomic/constants.py`): a generator of mnemonic version identifiers
built from 28-day cycles of a calendar year.  Dates are modelled as explicit
calendar records, Python integer division and modulo on non-negative values as
`Nat` division and modulo, Python list indexing as `List.getElem?` (an
out-of-range index, which raises `IndexError` in Python, becomes `none`), and
fallible methods as `Except`/`Option` values.
-/

namespace Vernomic

/-! ## Calendar model (Python `datetime` / `timetuple().tm_yday`) -/

/-- Gregorian leap-year rule used by Python's `datetime`. -/
def isLeap (y : Nat) : Bool :=
  (y % 4 == 0 && y % 100 != 0) || y % 400 == 0

/-- Number of days of month `m` (1-based) of year `y`. -/
def monthLength (y m : Nat) : Nat :=
  if m = 2 then (if isLeap y then 29 else 28)
  else if m = 4 ∨ m = 6 ∨ m = 9 ∨ m = 11 then 30
  else 31

/-- Days of year `y` that fall strictly before month `m` (1-based). -/
def daysBeforeMonth (y m : Nat) : Nat :=
  ((List.range (m - 1)).map (fun i => monthLength y (i + 1))).sum

/-- A wall-clock date and time, as carried by a Python `datetime` value. -/
structure Date where
  year : Nat
  month : Nat
  day : Nat
  hour : Nat
  minute : Nat
  second : Nat
deriving DecidableEq

/-- The invariant Python's `datetime` constructor enforces on its fields. -/
def ValidDate (d : Date) : Prop :=
  1 ≤ d.year ∧ d.year ≤ 9999 ∧
  1 ≤ d.month ∧ d.month ≤ 12 ∧
  1 ≤ d.day ∧ d.day ≤ monthLength d.year d.month ∧
  d.hour ≤ 23 ∧ d.minute ≤ 59 ∧ d.second ≤ 59

instance (d : Date) : Decidable (ValidDate d) := by
  unfold ValidDate; infer_instance

/-- 1-based day of year (Jan 1 = 1), Python's `date.timetuple().tm_yday`. -/
def dayOfYear (d : Date) : Nat :=
  daysBeforeMonth d.year d.month + d.day

/-! ## Constants (`src/vernomic/constants.py`) -/

/-- The `CYCLE_DAYS` literal of `constants.py`, before `sorted` is applied. -/
def rawCycleDays : List String :=
  ["Alpaca", "Cat", "Camel", "Cow", "Dog", "Dolphin", "Duck", "Elephant",
   "Eagle", "Fox", "Frog", "Giraffe", "Horse", "Iguana", "Jaguar", "Lion",
   "Lizard", "Monkey", "Mouse", "Owl", "Panda", "Penguin", "Rabbit",
   "Squirrel", "Snake", "Tiger", "Turtle", "Whale"]

/-- The `CYCLE_NAMES` literal of `constants.py`, before `sorted` is applied. -/
def rawCycleNames : List String :=
  ["Amber", "Bronze", "Coral", "Diamond", "Emerald", "Fuchsia", "Gold",
   "Indigo", "Khaki", "Onyx", "Ruby", "Silver", "Turquoise", "Violet"]

/-- Lexicographic comparison of character lists by Unicode code point; this is
exactly how Python compares strings. -/
def charListLe : List Char → List Char → Bool
  | [], _ => true
  | _ :: _, [] => false
  | a :: as, b :: bs => if a < b then true else if b < a then false else charListLe as bs

/-- Python's string `<=`: code-point lexicographic order. -/
def strLe (a b : String) : Bool := charListLe a.data b.data

/-- Insertion step of a stable lexicographic sort, modelling Python `sorted`. -/
def insertStr (x : String) : List String → List String
  | [] => [x]
  | y :: ys => if strLe x y then x :: y :: ys else y :: insertStr x ys

/-- Stable insertion sort on strings, modelling Python `sorted` (the names are
pairwise distinct ASCII words, on which Python's and Lean's string orders
agree, so any correct sort yields the same list). -/
def sortStr (l : List String) : List String :=
  l.foldr insertStr []

/-- `CYCLE_DAYS = sorted([...])` of `constants.py`. -/
def CYCLE_DAYS : List String := sortStr rawCycleDays

/-- `CYCLE_NAMES = sorted([...])` of `constants.py`. -/
def CYCLE_NAMES : List String := sortStr rawCycleNames

/-! ## Decimal rendering (Python `str(int)` and `f-string` `02d` padding) -/

/-- The decimal digit character for `d < 10`. -/
def digitChar (d : Nat) : Char := Char.ofNat (48 + d)

/-- Most-significant-first decimal digits of `n`, driven by explicit fuel so
that the definition is structurally recursive; `fuel = n + 1` always
suffices. -/
def digitsAux (fuel n : Nat) : List Char :=
  match fuel with
  | 0 => []
  | fuel + 1 =>
    if n < 10 then [digitChar n]
    else digitsAux fuel (n / 10) ++ [digitChar (n % 10)]

/-- Python `str` on a non-negative integer. -/
def natRepr (n : Nat) : String := ⟨digitsAux (n + 1) n⟩

/-- Python slicing `s[-2:]`: the last two characters (the whole string when it
is shorter than two characters). -/
def sliceLast2 (s : String) : String := ⟨s.data.drop (s.data.length - 2)⟩

/-- Python formatting `f"{n:02d}"` for a non-negative integer. -/
def pad2 (n : Nat) : String := if n < 10 then "0" ++ natRepr n else natRepr n

/-! ## The `Vernomic` dataclass (`src/vernomic/vernomic.py`) -/

/-- The fields of the `Vernomic` dataclass after `__post_init__` (a numeric
timestamp has already been normalised to a `datetime`). -/
structure Vern where
  root_name : String
  suffix_name : String := ""
  file_extension : String := ""
  date : Date
deriving DecidableEq

/-- The `cycle_and_day` property: `day_of_year = tm_yday`,
`cycle_number = (day_of_year - 1) // 28`, `day_of_cycle = (day_of_year - 1) % 28`,
returned as the pair `(cycle_number, day_of_cycle)`. -/
def cycleAndDay (d : Date) : Nat × Nat :=
  let day_of_year := dayOfYear d
  ((day_of_year - 1) / 28, (day_of_year - 1) % 28)

/-- The two list lookups of the `day_name` property:
`CYCLE_NAMES[cycle_number]` and `CYCLE_DAYS[day_of_cycle]`, joined by `"_"`.
Python raises `IndexError` on an out-of-range index, modelled by `none`;
the source applies no modulo to either index. -/
def dayNameLookup (cycle_number day_of_cycle : Nat) : Option String :=
  match CYCLE_NAMES[cycle_number]?, CYCLE_DAYS[day_of_cycle]? with
  | some cycle_label, some day_label => some (cycle_label ++ "_" ++ day_label)
  | _, _ => none

/-- The `day_name` property of a `Vernomic` with date `d`. -/
def dayName (d : Date) : Option String :=
  dayNameLookup (cycleAndDay d).1 (cycleAndDay d).2

/-- The `version_time` property: `f"{hour:02d}{minute:02d}"`. -/
def versionTime (d : Date) : String := pad2 d.hour ++ pad2 d.minute

/-- The `version_year` property: `str(year)[-2:]`. -/
def versionYear (d : Date) : String := sliceLast2 (natRepr d.year)

/-- Python `"_".join(parts)` (with an arbitrary separator). -/
def joinSep (sep : String) : List String → String
  | [] => ""
  | [x] => x
  | x :: xs => x ++ sep ++ joinSep sep xs

/-- The `vernomic_id` property: join `root_name`, `version_year`, `day_name`
and `version_time` with `"_"`, appending `suffix_name` first when it is
non-empty; `none` when the `day_name` lookup raises. -/
def vernomicId (v : Vern) : Option String :=
  (dayName v.date).map (fun dn =>
    let parts := [v.root_name, versionYear v.date, dn, versionTime v.date]
    let parts := if v.suffix_name ≠ "" then parts ++ [v.suffix_name] else parts
    joinSep "_" parts)

/-- Python `s.lstrip(".")`: remove every leading `'.'`. -/
def lstripDots (s : String) : String := ⟨s.data.dropWhile (· = '.')⟩

/-- The error message raised by `file_name` when `file_extension` is empty. -/
def extMissingMsg : String :=
  "`file_extension` must be set before calling file_name."

/-- The `file_name` property: raises `ValueError` when `file_extension` is
empty, otherwise `f"{vernomic_id}.{ext}"` with the extension's leading dots
stripped; an `IndexError` escaping from `vernomic_id` is also an error. -/
def fileName (v : Vern) : Except String String :=
  if v.file_extension = "" then .error extMissingMsg
  else
    match vernomicId v with
    | some id => .ok (id ++ "." ++ lstripDots v.file_extension)
    | none => .error "IndexError"

/-! ## Python `str.split("_")` (used by the repository's tests and the spec to
state the token structure of `vernomic_id`) -/

/-- Python `str.split(sep)` for a one-character separator, on character
lists: splits at every occurrence, keeping empty tokens. -/
def splitCh (sep : Char) : List Char → List (List Char)
  | [] => [[]]
  | c :: cs =>
    let r := splitCh sep cs
    if c = sep then [] :: r
    else
      match r with
      | [] => [[c]]
      | t :: ts => (c :: t) :: ts

/-- Python `s.split("_")`. -/
def splitUS (s : String) : List String := (splitCh '_' s.data).map String.mk

/-! ## `to_yaml` path resolution (`Vernomic.to_yaml`) -/

/-- What the filesystem holds at a path: a directory, a non-directory entry,
or nothing. -/
inductive FsKind where
  | dir : FsKind
  | file : FsKind
  | absent : FsKind
deriving DecidableEq

/-- A filesystem, queried at paths given as component lists (the `parts` of a
`pathlib.Path`). -/
def Fs : Type := List String → FsKind

/-- Python `str.rfind(c)`: the index of the last occurrence of `c`, `none`
(Python: `-1`) when absent. -/
def rfind (c : Char) : List Char → Option Nat
  | [] => none
  | x :: xs =>
    match rfind c xs with
    | some i => some (i + 1)
    | none => if x = c then some 0 else none

/-- `pathlib.PurePath.suffix` is non-empty: with `i = name.rfind('.')`, the
suffix is `name[i:]` when `0 < i < len(name) - 1` and empty otherwise (so a
leading or trailing last dot yields no suffix). -/
def hasExt (name : String) : Bool :=
  match rfind '.' name.data with
  | some i => decide (0 < i ∧ i < name.data.length - 1)
  | none => false

/-- The error message raised by `to_yaml` when the target's parent exists but
is not a directory. -/
def notDirMsg : String := "Cannot create directory: not a directory."

/-- The path-resolution logic of `to_yaml`: detect directory intent (the path
string ends in `os.sep`, or the filesystem has a directory there), in that
case descend to `<vernomic_id>.yaml`; give the target a `.yaml` suffix when it
has none (`with_suffix` raises `ValueError` on an empty name); fail when the
target's parent exists and is not a directory. Returns the components of the
file that would be written. -/
def resolveTarget (fs : Fs) (comps : List String) (trailingSep : Bool)
    (id : String) : Except String (List String) :=
  let isDir := trailingSep || (fs comps == FsKind.dir)
  let p := if isDir then comps ++ [id ++ ".yaml"] else comps
  match p.getLast? with
  | none => .error "ValueError: empty name"
  | some name =>
    let p := if hasExt name then p else p.dropLast ++ [name ++ ".yaml"]
    let parent := p.dropLast
    if fs parent ≠ FsKind.absent ∧ fs parent ≠ FsKind.dir then .error notDirMsg
    else .ok p

/-! ## Class-level default for `date` -/

/-- In `vernomic.py` the dataclass field default
`date: Union[datetime, int, float] = datetime.now()` is an expression that
Python evaluates exactly once, while executing the class body at import time;
the resulting `datetime` value is stored on the class object. This structure
holds that stored value. -/
structure VernClassDefaults where
  default_date : Date

/-- Constructing a `Vernomic` without passing `date`: the stored class-level
default is reused, whatever the current time is at construction. -/
def mkWithoutDate (cls : VernClassDefaults) (root suffix ext : String) : Vern :=
  { root_name := root, suffix_name := suffix, file_extension := ext,
    date := cls.default_date }

/-! ## Helper lemmas: the constant lists evaluated -/

theorem cycle_days_eval :
    CYCLE_DAYS =
      ["Alpaca", "Camel", "Cat", "Cow", "Dog", "Dolphin", "Duck", "Eagle",
       "Elephant", "Fox", "Frog", "Giraffe", "Horse", "Iguana", "Jaguar",
       "Lion", "Lizard", "Monkey", "Mouse", "Owl", "Panda", "Penguin",
       "Rabbit", "Snake", "Squirrel", "Tiger", "Turtle", "Whale"] := by
  decide

theorem cycle_names_eval :
    CYCLE_NAMES =
      ["Amber", "Bronze", "Coral", "Diamond", "Emerald", "Fuchsia", "Gold",
       "Indigo", "Khaki", "Onyx", "Ruby", "Silver", "Turquoise", "Violet"] := by
  decide

theorem cycle_days_length : CYCLE_DAYS.length = 28 := by
  rw [cycle_days_eval]; rfl

theorem cycle_names_length : CYCLE_NAMES.length = 14 := by
  rw [cycle_names_eval]; rfl

/-! ## Helper lemmas: calendar bounds -/

theorem dayOfYear_pos (d : Date) (h : ValidDate d) : 1 ≤ dayOfYear d := by
  obtain ⟨-, -, -, -, hd1, -⟩ := h
  unfold dayOfYear
  exact le_add_of_nonneg_of_le (Nat.zero_le _) hd1

theorem dayOfYear_le (d : Date) (h : ValidDate d) : dayOfYear d ≤ 366 := by
  obtain ⟨y, m, day, hh, mi, s⟩ := d
  obtain ⟨-, -, hm1, hm2, -, hd2, -⟩ := h
  simp only at hm1 hm2 hd2 ⊢
  unfold dayOfYear
  simp only
  interval_cases m <;>
    cases hL : isLeap y <;>
      simp only [daysBeforeMonth, monthLength, hL, List.range_succ, List.range_zero,
        List.map_append, List.map_cons, List.map_nil, List.sum_append, List.sum_cons,
        List.sum_nil, if_true, if_false] at hd2 ⊢ <;>
      norm_num at hd2 ⊢ <;> omega

theorem cycle_le_13 (d : Date) (h : ValidDate d) : (cycleAndDay d).1 ≤ 13 := by
  have h366 := dayOfYear_le d h
  show (dayOfYear d - 1) / 28 ≤ 13
  have : dayOfYear d - 1 ≤ 365 := by omega
  calc (dayOfYear d - 1) / 28 ≤ 365 / 28 := Nat.div_le_div_right this
    _ = 13 := by norm_num

theorem day_lt_28 (d : Date) : (cycleAndDay d).2 < 28 := by
  exact Nat.mod_lt _ (by norm_num)

/-! ## Helper lemmas: decimal digits -/

theorem digitChar_digit (d : Nat) (h : d < 10) :
    digitChar d ≠ '_' ∧ digitChar d ≠ '.' := by
  interval_cases d <;> exact ⟨by decide, by decide⟩

theorem digitsAux_digits (fuel : Nat) :
    ∀ n c, c ∈ digitsAux fuel n → c ≠ '_' ∧ c ≠ '.' := by
  induction fuel with
  | zero => intro n c hc; simp [digitsAux] at hc
  | succ fuel ih =>
    intro n c hc
    unfold digitsAux at hc
    by_cases h10 : n < 10
    · simp only [h10, if_true, List.mem_singleton] at hc
      subst hc; exact digitChar_digit n h10
    · simp only [h10, if_false, List.mem_append, List.mem_singleton] at hc
      rcases hc with hc | hc
      · exact ih _ _ hc
      · subst hc; exact digitChar_digit _ (Nat.mod_lt _ (by norm_num))

theorem natRepr_no_sep (n : Nat) : '_' ∉ (natRepr n).data := by
  intro hmem
  exact ((digitsAux_digits _ _ _ hmem).1 rfl)

theorem versionYear_no_sep (d : Date) : '_' ∉ (versionYear d).data := by
  intro hmem
  unfold versionYear sliceLast2 at hmem
  exact natRepr_no_sep _ (List.mem_of_mem_drop hmem)

theorem pad2_no_sep (n : Nat) : '_' ∉ (pad2 n).data := by
  intro hmem
  unfold pad2 at hmem
  by_cases h10 : n < 10
  · simp only [h10, if_true, String.data_append] at hmem
    rcases List.mem_append.mp hmem with hc | hc
    · simp at hc
    · exact natRepr_no_sep _ hc
  · simp only [h10, if_false] at hmem
    exact natRepr_no_sep _ hmem

theorem versionTime_no_sep (d : Date) : '_' ∉ (versionTime d).data := by
  intro hmem
  unfold versionTime at hmem
  rw [String.data_append] at hmem
  rcases List.mem_append.mp hmem with hc | hc
  · exact pad2_no_sep _ hc
  · exact pad2_no_sep _ hc

theorem digitsAux_len_pos (fuel n : Nat) (h : 0 < fuel) :
    1 ≤ (digitsAux fuel n).length := by
  obtain ⟨fuel, rfl⟩ : ∃ f, fuel = f + 1 := ⟨fuel - 1, by omega⟩
  unfold digitsAux
  by_cases h10 : n < 10 <;> simp [h10]

theorem natRepr_len_ge_two (n : Nat) (h : 10 ≤ n) :
    2 ≤ (natRepr n).data.length := by
  show 2 ≤ (digitsAux (n + 1) n).length
  unfold digitsAux
  simp only [Nat.not_lt.mpr h, if_false, List.length_append, List.length_singleton]
  have := digitsAux_len_pos n (n / 10) (by omega)
  omega

theorem digitsAux_small (fuel n : Nat) (h : n < 10) (hf : 0 < fuel) :
    digitsAux fuel n = [digitChar n] := by
  obtain ⟨fuel, rfl⟩ : ∃ f, fuel = f + 1 := ⟨fuel - 1, by omega⟩
  unfold digitsAux
  simp [h]

theorem natRepr_len_two (n : Nat) (h10 : 10 ≤ n) (h100 : n < 100) :
    (natRepr n).data.length = 2 := by
  show (digitsAux (n + 1) n).length = 2
  unfold digitsAux
  simp only [Nat.not_lt.mpr h10, if_false, List.length_append, List.length_singleton]
  rw [digitsAux_small n (n / 10) (by omega) (by omega)]
  rfl

theorem versionYear_len_two (d : Date) (h : 10 ≤ d.year) :
    (versionYear d).data.length = 2 := by
  show ((natRepr d.year).data.drop ((natRepr d.year).data.length - 2)).length = 2
  rw [List.length_drop]
  have := natRepr_len_ge_two d.year h
  omega

theorem pad2_len_two (n : Nat) (h : n < 100) : (pad2 n).data.length = 2 := by
  unfold pad2
  by_cases h10 : n < 10
  · simp only [h10, if_true, String.data_append]
    rw [List.length_append]
    rw [show (natRepr n).data = [digitChar n] from digitsAux_small _ _ h10 (by omega)]
    rfl
  · simp only [h10, if_false]
    exact natRepr_len_two n (by omega) h

theorem versionTime_len_four (d : Date) (h : ValidDate d) :
    (versionTime d).data.length = 4 := by
  obtain ⟨-, -, -, -, -, -, hh, hm, -⟩ := h
  unfold versionTime
  rw [String.data_append, List.length_append,
    pad2_len_two _ (by omega), pad2_len_two _ (by omega)]

/-! ## Helper lemmas: `split` undoes `join` on separator-free parts -/

theorem splitCh_sep_free (sep : Char) (l : List Char) (h : sep ∉ l) :
    splitCh sep l = [l] := by
  induction l with
  | nil => rfl
  | cons c cs ih =>
    have hc : ¬ c = sep := fun hc => h (hc ▸ List.mem_cons_self c cs)
    have hcs : sep ∉ cs := fun hm => h (List.mem_cons_of_mem c hm)
    unfold splitCh
    rw [ih hcs]
    simp [hc]

theorem splitCh_cons_ne_nil (sep : Char) (l : List Char) : splitCh sep l ≠ [] := by
  induction l with
  | nil => simp [splitCh]
  | cons c cs ih =>
    unfold splitCh
    by_cases hc : c = sep
    · simp [hc]
    · simp only [hc, if_false]
      rcases hr : splitCh sep cs with _ | ⟨t, ts⟩
      · exact absurd hr ih
      · simp

theorem splitCh_append_sep (sep : Char) (a b : List Char) (h : sep ∉ a) :
    splitCh sep (a ++ sep :: b) = a :: splitCh sep b := by
  induction a with
  | nil =>
    show splitCh sep (sep :: b) = [] :: splitCh sep b
    rw [splitCh]
    simp
  | cons c a' ih =>
    have hc : ¬ c = sep := fun hc => h (hc ▸ List.mem_cons_self c a')
    have ha' : sep ∉ a' := fun hm => h (List.mem_cons_of_mem c hm)
    show splitCh sep (c :: (a' ++ sep :: b)) = (c :: a') :: splitCh sep b
    rw [splitCh, ih ha']
    simp [hc]

theorem splitCh_join (x : String) (xs : List String)
    (hx : '_' ∉ x.data) (hxs : ∀ p ∈ xs, '_' ∉ p.data) :
    splitCh '_' ((joinSep "_" (x :: xs)).data) = (x :: xs).map String.data := by
  induction xs generalizing x with
  | nil => exact (splitCh_sep_free '_' x.data hx).trans rfl
  | cons y ys ih =>
    show splitCh '_' ((x ++ "_" ++ joinSep "_" (y :: ys)).data) = _
    rw [String.data_append, String.data_append]
    have : ("_" : String).data = ['_'] := rfl
    rw [this, List.append_assoc, List.singleton_append]
    rw [splitCh_append_sep '_' x.data _ hx]
    rw [ih y (hxs y (List.mem_cons_self y ys))
      (fun p hp => hxs p (List.mem_cons_of_mem y hp))]
    rfl

theorem splitUS_join (parts : List String) (hne : parts ≠ [])
    (h : ∀ p ∈ parts, '_' ∉ p.data) :
    splitUS (joinSep "_" parts) = parts := by
  rcases parts with _ | ⟨x, xs⟩
  · exact absurd rfl hne
  · unfold splitUS
    rw [splitCh_join x xs (h x (List.mem_cons_self x xs))
      (fun p hp => h p (List.mem_cons_of_mem x hp))]
    rw [List.map_map]
    have : (String.mk ∘ String.data) = id := by
      funext s; cases s; rfl
    rw [this, List.map_id]

/-! ## Helper lemmas: the name lookups -/

theorem cycle_names_no_sep : ∀ s ∈ CYCLE_NAMES, '_' ∉ s.data := by
  rw [cycle_names_eval]; decide

theorem cycle_days_no_sep : ∀ s ∈ CYCLE_DAYS, '_' ∉ s.data := by
  rw [cycle_days_eval]; decide

theorem dayNameLookup_eq (c dd : Nat) (hc : c < 14) (hd : dd < 28) :
    dayNameLookup c dd =
      some (CYCLE_NAMES.getD c "" ++ "_" ++ CYCLE_DAYS.getD dd "") := by
  have hc' : c < CYCLE_NAMES.length := by rw [cycle_names_length]; exact hc
  have hd' : dd < CYCLE_DAYS.length := by rw [cycle_days_length]; exact hd
  unfold dayNameLookup
  rw [List.getElem?_eq_getElem hc', List.getElem?_eq_getElem hd']
  rw [List.getD_eq_getElem CYCLE_NAMES _ hc', List.getD_eq_getElem CYCLE_DAYS _ hd']

theorem dayName_eq (d : Date) (h : ValidDate d) :
    dayName d =
      some (CYCLE_NAMES.getD (cycleAndDay d).1 "" ++ "_" ++
        CYCLE_DAYS.getD (cycleAndDay d).2 "") :=
  dayNameLookup_eq _ _ (by have := cycle_le_13 d h; omega) (day_lt_28 d)

theorem cycle_name_mem (c : Nat) (hc : c < 14) :
    CYCLE_NAMES.getD c "" ∈ CYCLE_NAMES ∧ '_' ∉ (CYCLE_NAMES.getD c "").data := by
  have hc' : c < CYCLE_NAMES.length := by rw [cycle_names_length]; exact hc
  rw [List.getD_eq_getElem CYCLE_NAMES _ hc']
  have hmem := List.getElem_mem hc'
  exact ⟨hmem, cycle_names_no_sep _ hmem⟩

theorem cycle_day_mem (dd : Nat) (hd : dd < 28) :
    CYCLE_DAYS.getD dd "" ∈ CYCLE_DAYS ∧ '_' ∉ (CYCLE_DAYS.getD dd "").data := by
  have hd' : dd < CYCLE_DAYS.length := by rw [cycle_days_length]; exact hd
  rw [List.getD_eq_getElem CYCLE_DAYS _ hd']
  have hmem := List.getElem_mem hd'
  exact ⟨hmem, cycle_days_no_sep _ hmem⟩

/-! ## Helper lemmas: joining with the fused `day_name` token -/

theorem joinSep_expand (r vy cy an vt : String) :
    joinSep "_" [r, vy, cy ++ "_" ++ an, vt] = joinSep "_" [r, vy, cy, an, vt] := by
  apply String.ext
  simp [joinSep, String.data_append, List.append_assoc]

theorem joinSep_expand_suffix (r vy cy an vt sf : String) :
    joinSep "_" [r, vy, cy ++ "_" ++ an, vt, sf] =
      joinSep "_" [r, vy, cy, an, vt, sf] := by
  apply String.ext
  simp [joinSep, String.data_append, List.append_assoc]

/-! ## Helper lemmas: path suffixes -/

theorem data_ne_nil_of_ne_empty (s : String) (h : s ≠ "") : s.data ≠ [] := by
  intro hd
  apply h
  cases s
  simp only at hd
  rw [hd]

theorem rfind_append_right (c : Char) (l m : List Char) (k : Nat)
    (h : rfind c m = some k) : rfind c (l ++ m) = some (l.length + k) := by
  induction l with
  | nil => simpa using h
  | cons x l' ih =>
    show rfind c (x :: (l' ++ m)) = some (l'.length + 1 + k)
    rw [rfind, ih]
    simp only [Option.some.injEq]
    omega

theorem hasExt_append_yaml (id : String) (h : id ≠ "") :
    hasExt (id ++ ".yaml") = true := by
  have hlen : 0 < id.data.length :=
    List.length_pos.mpr (data_ne_nil_of_ne_empty id h)
  have hy : rfind '.' (".yaml" : String).data = some 0 := rfl
  unfold hasExt
  rw [String.data_append, rfind_append_right '.' id.data (".yaml" : String).data 0 hy]
  show decide (0 < id.data.length + 0 ∧
      id.data.length + 0 < (id.data ++ (".yaml" : String).data).length - 1) = true
  rw [decide_eq_true_eq, List.length_append,
    show (".yaml" : String).data.length = 5 from rfl]
  omega

/-! ## Claim theorems -/

/-- C1: for every valid date, `cycle_and_day` returns
`cycle_number = (day_of_year - 1) // 28` and `day_of_cycle = (day_of_year - 1) % 28`,
where `day_of_year` is the 1-based day of year (Jan 1 = 1) that counts 366 days
in leap years and 365 otherwise. -/
theorem cycle_and_day_follows_day_of_year (d : Date) (_h : ValidDate d) :
    (cycleAndDay d).1 = (dayOfYear d - 1) / 28 ∧
    (cycleAndDay d).2 = (dayOfYear d - 1) % 28 ∧
    dayOfYear ⟨d.year, 1, 1, 0, 0, 0⟩ = 1 ∧
    dayOfYear ⟨d.year, 12, 31, 0, 0, 0⟩ = (if isLeap d.year then 366 else 365) := by
  refine ⟨rfl, rfl, rfl, ?_⟩
  cases hL : isLeap d.year <;>
    simp only [dayOfYear, daysBeforeMonth, monthLength, hL, List.range_succ,
      List.range_zero, List.map_append, List.map_cons, List.map_nil,
      List.sum_append, List.sum_cons, List.sum_nil, if_true, if_false] <;>
    norm_num

/-- C1 witness: the theorem applied at 2024-03-05 10:30:00. -/
theorem cycle_and_day_follows_day_of_year_witness :
    ValidDate ⟨2024, 3, 5, 10, 30, 0⟩ ∧
    ((cycleAndDay ⟨2024, 3, 5, 10, 30, 0⟩).1 =
        (dayOfYear ⟨2024, 3, 5, 10, 30, 0⟩ - 1) / 28 ∧
      (cycleAndDay ⟨2024, 3, 5, 10, 30, 0⟩).2 =
        (dayOfYear ⟨2024, 3, 5, 10, 30, 0⟩ - 1) % 28 ∧
      dayOfYear ⟨2024, 1, 1, 0, 0, 0⟩ = 1 ∧
      dayOfYear ⟨2024, 12, 31, 0, 0, 0⟩ = (if isLeap 2024 then 366 else 365)) :=
  ⟨by decide, cycle_and_day_follows_day_of_year ⟨2024, 3, 5, 10, 30, 0⟩ (by decide)⟩

/-- C2 counterexample: the `day_name` lookup applies no modulo; at
`cycle_number = 14` it raises `IndexError` (modelled as `none`) instead of
wrapping to `CYCLE_NAMES[14 % 14]`. -/
theorem day_name_no_modulo_cex :
    dayNameLookup 14 0 = none ∧
    dayNameLookup 14 0 ≠
      some (CYCLE_NAMES.getD (14 % 14) "" ++ "_" ++ CYCLE_DAYS.getD (0 % 28) "") := by
  constructor
  · decide
  · decide

/-- C2 amended: `day_name` indexes `CYCLE_NAMES` and `CYCLE_DAYS` directly,
without any modulo; since `cycle_number ≤ 13 < 14` and `day_of_cycle < 28` for
every valid date, the result nevertheless equals
`CYCLE_NAMES[cycle_number % 14] ++ "_" ++ CYCLE_DAYS[day_of_cycle % 28]` for
every valid date, while an index `≥ 14` would raise rather than wrap. -/
theorem day_name_eq_modulo_lookup (d : Date) (h : ValidDate d) :
    dayName d =
      some (CYCLE_NAMES.getD ((cycleAndDay d).1 % 14) "" ++ "_" ++
        CYCLE_DAYS.getD ((cycleAndDay d).2 % 28) "") := by
  have hc : (cycleAndDay d).1 < 14 := by have := cycle_le_13 d h; omega
  rw [Nat.mod_eq_of_lt hc, Nat.mod_eq_of_lt (day_lt_28 d)]
  exact dayName_eq d h

/-- C2 witness: the amended theorem applied at 2023-12-20 00:00:00. -/
theorem day_name_eq_modulo_lookup_witness :
    ValidDate ⟨2023, 12, 20, 0, 0, 0⟩ ∧
    dayName ⟨2023, 12, 20, 0, 0, 0⟩ =
      some (CYCLE_NAMES.getD ((cycleAndDay ⟨2023, 12, 20, 0, 0, 0⟩).1 % 14) "" ++ "_" ++
        CYCLE_DAYS.getD ((cycleAndDay ⟨2023, 12, 20, 0, 0, 0⟩).2 % 28) "") :=
  ⟨by decide, day_name_eq_modulo_lookup ⟨2023, 12, 20, 0, 0, 0⟩ (by decide)⟩

/-- C4: for every valid date, `day_of_cycle < 28` and `cycle_number ≤ 13`, so
both lookups of `day_name` (into the 14-entry `CYCLE_NAMES` and the 28-entry
`CYCLE_DAYS`) are in bounds and `day_name` never raises. -/
theorem cycle_and_day_in_bounds (d : Date) (h : ValidDate d) :
    (cycleAndDay d).2 < 28 ∧ (cycleAndDay d).1 ≤ 13 ∧
    (cycleAndDay d).1 < CYCLE_NAMES.length ∧
    (cycleAndDay d).2 < CYCLE_DAYS.length ∧
    (dayName d).isSome = true := by
  have hc := cycle_le_13 d h
  have hd := day_lt_28 d
  refine ⟨hd, hc, ?_, ?_, ?_⟩
  · rw [cycle_names_length]; omega
  · rw [cycle_days_length]; omega
  · rw [dayName_eq d h]; rfl

/-- C4 witness: the theorem applied at 2023-12-31 23:59:59 (day of year 365,
the last cycle). -/
theorem cycle_and_day_in_bounds_witness :
    ValidDate ⟨2023, 12, 31, 23, 59, 59⟩ ∧
    ((cycleAndDay ⟨2023, 12, 31, 23, 59, 59⟩).2 < 28 ∧
      (cycleAndDay ⟨2023, 12, 31, 23, 59, 59⟩).1 ≤ 13 ∧
      (cycleAndDay ⟨2023, 12, 31, 23, 59, 59⟩).1 < CYCLE_NAMES.length ∧
      (cycleAndDay ⟨2023, 12, 31, 23, 59, 59⟩).2 < CYCLE_DAYS.length ∧
      (dayName ⟨2023, 12, 31, 23, 59, 59⟩).isSome = true) :=
  ⟨by decide, cycle_and_day_in_bounds ⟨2023, 12, 31, 23, 59, 59⟩ (by decide)⟩

/-- C6 counterexample: at `root_name = "model"`, `date = 2023-12-20T00:00:00`,
the code computes `day_of_cycle = (354 - 1) % 28 = 17`, not 25, and the id is
`model_23_Turquoise_Monkey_0000`, not `model_23_Turquoise_Tiger_0000`. -/
theorem example_scenario_cex :
    cycleAndDay ⟨2023, 12, 20, 0, 0, 0⟩ = (12, 17) ∧
    (17 : Nat) ≠ 25 ∧
    CYCLE_DAYS.getD 25 "" = "Tiger" ∧
    vernomicId ⟨"model", "", "", ⟨2023, 12, 20, 0, 0, 0⟩⟩ ≠
      some "model_23_Turquoise_Tiger_0000" := by
  refine ⟨by decide, by decide, by decide, by decide⟩

/-- C6 amended: at `root_name = "model"`, `date = 2023-12-20T00:00:00`,
`day_of_year = 354`, `cycle_number = 353 // 28 = 12`,
`day_of_cycle = 353 % 28 = 17`, and with the sorted constant lists the full id
is `model_23_Turquoise_Monkey_0000`. -/
theorem example_scenario :
    dayOfYear ⟨2023, 12, 20, 0, 0, 0⟩ = 354 ∧
    cycleAndDay ⟨2023, 12, 20, 0, 0, 0⟩ = ((354 - 1) / 28, (354 - 1) % 28) ∧
    cycleAndDay ⟨2023, 12, 20, 0, 0, 0⟩ = (12, 17) ∧
    CYCLE_NAMES.getD 12 "" = "Turquoise" ∧
    CYCLE_DAYS.getD 17 "" = "Monkey" ∧
    vernomicId ⟨"model", "", "", ⟨2023, 12, 20, 0, 0, 0⟩⟩ =
      some ("model_23_" ++ "Turquoise" ++ "_" ++ "Monkey" ++ "_0000") := by
  refine ⟨by decide, by decide, by decide, by decide, by decide, by decide⟩

/-- C7: `vernomic_id` (and `file_name`) are deterministic: two `Vernomic`
values built from identical `(root_name, date, suffix_name, file_extension)`
inputs produce identical strings; there is no hidden state and no clock read
once an explicit date is supplied. -/
theorem vernomic_id_deterministic (v₁ v₂ : Vern)
    (hr : v₁.root_name = v₂.root_name) (hd : v₁.date = v₂.date)
    (hs : v₁.suffix_name = v₂.suffix_name)
    (he : v₁.file_extension = v₂.file_extension) :
    vernomicId v₁ = vernomicId v₂ ∧ fileName v₁ = fileName v₂ := by
  obtain ⟨r₁, s₁, e₁, d₁⟩ := v₁
  obtain ⟨r₂, s₂, e₂, d₂⟩ := v₂
  simp only at hr hd hs he
  subst hr; subst hd; subst hs; subst he
  exact ⟨rfl, rfl⟩

/-- C7 witness: the theorem applied to two identically-built values. -/
theorem vernomic_id_deterministic_witness :
    vernomicId ⟨"model", "v1", "h5", ⟨2023, 12, 20, 8, 5, 0⟩⟩ =
      vernomicId ⟨"model", "v1", "h5", ⟨2023, 12, 20, 8, 5, 0⟩⟩ ∧
    fileName ⟨"model", "v1", "h5", ⟨2023, 12, 20, 8, 5, 0⟩⟩ =
      fileName ⟨"model", "v1", "h5", ⟨2023, 12, 20, 8, 5, 0⟩⟩ :=
  vernomic_id_deterministic _ _ rfl rfl rfl rfl

/-- C3 counterexample: for year 5 (a valid Python `datetime` year), the second
token of `vernomic_id` is `"5"`, a one-character string, not a 2-digit year. -/
theorem vernomic_id_token_structure_cex :
    ('_' ∉ ("model" : String).data) ∧
    vernomicId ⟨"model", "", "", ⟨5, 1, 1, 0, 0, 0⟩⟩ =
      some "model_5_Amber_Alpaca_0000" ∧
    (splitUS "model_5_Amber_Alpaca_0000").getD 1 "" = "5" ∧
    ("5" : String).data.length = 1 := by
  refine ⟨by decide, by decide, by decide, by decide⟩

/-- C3 amended: for every `Vernomic` with a valid date whose `root_name` and
`suffix_name` contain no `'_'`, `vernomic_id` split on `'_'` yields, in order:
`root_name`, the `version_year` string (2 digits whenever `year ≥ 10`; for
`year < 10` it is the full shorter decimal year), a cycle name from
`CYCLE_NAMES`, a day name from `CYCLE_DAYS`, and the 4-character `HHMM` time,
followed by `suffix_name` as a final token iff `suffix_name` is non-empty. -/
theorem vernomic_id_token_structure (v : Vern) (hv : ValidDate v.date)
    (hroot : '_' ∉ v.root_name.data) (hsuf : '_' ∉ v.suffix_name.data) :
    ∃ id, vernomicId v = some id ∧
      splitUS id =
        [v.root_name, versionYear v.date,
          CYCLE_NAMES.getD (cycleAndDay v.date).1 "",
          CYCLE_DAYS.getD (cycleAndDay v.date).2 "",
          versionTime v.date] ++
          (if v.suffix_name = "" then [] else [v.suffix_name]) ∧
      (10 ≤ v.date.year → (versionYear v.date).data.length = 2) ∧
      (versionTime v.date).data.length = 4 ∧
      CYCLE_NAMES.getD (cycleAndDay v.date).1 "" ∈ CYCLE_NAMES ∧
      CYCLE_DAYS.getD (cycleAndDay v.date).2 "" ∈ CYCLE_DAYS := by
  have hc : (cycleAndDay v.date).1 < 14 := by have := cycle_le_13 _ hv; omega
  have hd : (cycleAndDay v.date).2 < 28 := day_lt_28 _
  obtain ⟨hcmem, hcns⟩ := cycle_name_mem _ hc
  obtain ⟨hdmem, hdns⟩ := cycle_day_mem _ hd
  unfold vernomicId
  rw [dayName_eq v.date hv]
  simp only [Option.map_some']
  refine ⟨_, rfl, ?_, fun hy => versionYear_len_two _ hy, versionTime_len_four _ hv,
    hcmem, hdmem⟩
  by_cases hs : v.suffix_name = ""
  · simp only [hs, ne_eq, not_true_eq_false, if_false, ite_true, List.append_nil]
    rw [joinSep_expand]
    exact splitUS_join _ (by simp) (by
      intro p hp
      simp only [List.mem_cons, List.not_mem_nil, or_false] at hp
      rcases hp with rfl | rfl | rfl | rfl | rfl
      · exact hroot
      · exact versionYear_no_sep _
      · exact hcns
      · exact hdns
      · exact versionTime_no_sep _)
  · simp only [hs, ne_eq, not_false_eq_true, if_true, ite_false]
    rw [show ([v.root_name, versionYear v.date,
        CYCLE_NAMES.getD (cycleAndDay v.date).1 "" ++ "_" ++
          CYCLE_DAYS.getD (cycleAndDay v.date).2 "",
        versionTime v.date] ++ [v.suffix_name]) =
      [v.root_name, versionYear v.date,
        CYCLE_NAMES.getD (cycleAndDay v.date).1 "" ++ "_" ++
          CYCLE_DAYS.getD (cycleAndDay v.date).2 "",
        versionTime v.date, v.suffix_name] from rfl]
    rw [joinSep_expand_suffix]
    exact splitUS_join _ (by simp) (by
      intro p hp
      simp only [List.mem_cons, List.not_mem_nil, or_false] at hp
      rcases hp with rfl | rfl | rfl | rfl | rfl | rfl
      · exact hroot
      · exact versionYear_no_sep _
      · exact hcns
      · exact hdns
      · exact versionTime_no_sep _
      · exact hsuf)

/-- C3 witness: the amended theorem applied to
`Vernomic("model", suffix_name="v1")` at 2023-12-20 08:05:00. -/
theorem vernomic_id_token_structure_witness :
    ValidDate ⟨2023, 12, 20, 8, 5, 0⟩ ∧
    (∃ id,
      vernomicId ⟨"model", "v1", "", ⟨2023, 12, 20, 8, 5, 0⟩⟩ = some id ∧
      splitUS id =
        ["model", versionYear ⟨2023, 12, 20, 8, 5, 0⟩,
          CYCLE_NAMES.getD (cycleAndDay ⟨2023, 12, 20, 8, 5, 0⟩).1 "",
          CYCLE_DAYS.getD (cycleAndDay ⟨2023, 12, 20, 8, 5, 0⟩).2 "",
          versionTime ⟨2023, 12, 20, 8, 5, 0⟩] ++
          (if ("v1" : String) = "" then [] else ["v1"]) ∧
      (10 ≤ (2023 : Nat) → (versionYear ⟨2023, 12, 20, 8, 5, 0⟩).data.length = 2) ∧
      (versionTime ⟨2023, 12, 20, 8, 5, 0⟩).data.length = 4 ∧
      CYCLE_NAMES.getD (cycleAndDay ⟨2023, 12, 20, 8, 5, 0⟩).1 "" ∈ CYCLE_NAMES ∧
      CYCLE_DAYS.getD (cycleAndDay ⟨2023, 12, 20, 8, 5, 0⟩).2 "" ∈ CYCLE_DAYS) :=
  ⟨by decide,
    vernomic_id_token_structure ⟨"model", "v1", "", ⟨2023, 12, 20, 8, 5, 0⟩⟩
      (by decide) (by decide) (by decide)⟩

/-- C5: `file_name` raises the "extension missing" `ValueError` iff
`file_extension` is empty; otherwise it returns
`vernomic_id ++ "." ++ file_extension` with the extension's leading dots
stripped before the dot is re-added. -/
theorem file_name_extension_contract (v : Vern) (hv : ValidDate v.date) :
    (fileName v = .error extMissingMsg ↔ v.file_extension = "") ∧
    (v.file_extension ≠ "" →
      ∃ id, vernomicId v = some id ∧
        fileName v = .ok (id ++ "." ++ lstripDots v.file_extension)) := by
  have hsome : ∃ id, vernomicId v = some id := by
    unfold vernomicId
    rw [dayName_eq v.date hv]
    exact ⟨_, rfl⟩
  obtain ⟨id, hid⟩ := hsome
  constructor
  · constructor
    · intro herr
      by_contra hne
      unfold fileName at herr
      rw [if_neg hne, hid] at herr
      simp at herr
    · intro he
      unfold fileName
      rw [if_pos he]
  · intro hne
    refine ⟨id, hid, ?_⟩
    unfold fileName
    rw [if_neg hne, hid]

/-- C5 witness: the theorem applied to `Vernomic("model",
file_extension=".h5")` at 2023-12-20 08:05:00. -/
theorem file_name_extension_contract_witness :
    ValidDate ⟨2023, 12, 20, 8, 5, 0⟩ ∧
    ((fileName ⟨"model", "", ".h5", ⟨2023, 12, 20, 8, 5, 0⟩⟩ = .error extMissingMsg ↔
        (".h5" : String) = "") ∧
      ((".h5" : String) ≠ "" →
        ∃ id, vernomicId ⟨"model", "", ".h5", ⟨2023, 12, 20, 8, 5, 0⟩⟩ = some id ∧
          fileName ⟨"model", "", ".h5", ⟨2023, 12, 20, 8, 5, 0⟩⟩ =
            .ok (id ++ "." ++ lstripDots ".h5"))) :=
  ⟨by decide,
    file_name_extension_contract ⟨"model", "", ".h5", ⟨2023, 12, 20, 8, 5, 0⟩⟩
      (by decide)⟩

/-- C10: `lstrip(".")` removes every leading dot, and the emptiness check of
`file_name` runs before the stripping; so for a `file_extension` consisting
only of dots, no "extension missing" error is raised and the result is
`vernomic_id` followed by a bare trailing dot and an empty extension. -/
theorem file_name_all_dots (v : Vern) (hv : ValidDate v.date)
    (hne : v.file_extension ≠ "")
    (hdots : ∀ c ∈ v.file_extension.data, c = '.') :
    lstripDots v.file_extension = "" ∧
    ∃ id, vernomicId v = some id ∧ fileName v = .ok (id ++ ".") := by
  have hstrip : lstripDots v.file_extension = "" := by
    unfold lstripDots
    rw [List.dropWhile_eq_nil_iff.mpr (fun x hx => decide_eq_true (hdots x hx))]
  have hsome : ∃ id, vernomicId v = some id := by
    unfold vernomicId
    rw [dayName_eq v.date hv]
    exact ⟨_, rfl⟩
  obtain ⟨id, hid⟩ := hsome
  refine ⟨hstrip, id, hid, ?_⟩
  unfold fileName
  rw [if_neg hne, hid, hstrip]
  have hdot : id ++ "." ++ "" = id ++ "." := by
    apply String.ext
    simp [String.data_append]
  show Except.ok (id ++ "." ++ "") = Except.ok (id ++ ".")
  rw [hdot]

/-- C10 witness: the theorem applied with `file_extension = "..."`. -/
theorem file_name_all_dots_witness :
    ValidDate ⟨2023, 12, 20, 8, 5, 0⟩ ∧ ("..." : String) ≠ "" ∧
    (lstripDots "..." = "" ∧
      ∃ id, vernomicId ⟨"model", "", "...", ⟨2023, 12, 20, 8, 5, 0⟩⟩ = some id ∧
        fileName ⟨"model", "", "...", ⟨2023, 12, 20, 8, 5, 0⟩⟩ = .ok (id ++ ".")) :=
  ⟨by decide, by decide,
    file_name_all_dots ⟨"model", "", "...", ⟨2023, 12, 20, 8, 5, 0⟩⟩
      (by decide) (by decide) (by decide)⟩

/-- C9: the dataclass default `datetime.now()` is evaluated once at class
definition, so any two `Vernomic` values constructed without an explicit date
share the identical stored date, and with equal remaining inputs they produce
identical `vernomic_id`, rather than each capturing its own construction
time. -/
theorem default_date_shared (cls : VernClassDefaults)
    (r₁ s₁ e₁ r₂ s₂ e₂ : String) :
    (mkWithoutDate cls r₁ s₁ e₁).date = (mkWithoutDate cls r₂ s₂ e₂).date ∧
    (r₁ = r₂ → s₁ = s₂ → e₁ = e₂ →
      vernomicId (mkWithoutDate cls r₁ s₁ e₁) =
        vernomicId (mkWithoutDate cls r₂ s₂ e₂)) := by
  refine ⟨rfl, ?_⟩
  intro hr hs he
  subst hr; subst hs; subst he
  rfl

/-- C9 witness: the theorem applied at a concrete class-level default date. -/
theorem default_date_shared_witness :
    (mkWithoutDate ⟨⟨2023, 12, 20, 8, 5, 0⟩⟩ "a" "" "").date =
      (mkWithoutDate ⟨⟨2023, 12, 20, 8, 5, 0⟩⟩ "b" "v1" "h5").date ∧
    ("a" = "a" → ("" : String) = "" → ("" : String) = "" →
      vernomicId (mkWithoutDate ⟨⟨2023, 12, 20, 8, 5, 0⟩⟩ "a" "" "") =
        vernomicId (mkWithoutDate ⟨⟨2023, 12, 20, 8, 5, 0⟩⟩ "a" "" "")) :=
  ⟨(default_date_shared ⟨⟨2023, 12, 20, 8, 5, 0⟩⟩ "a" "" "" "b" "v1" "h5").1,
    (default_date_shared ⟨⟨2023, 12, 20, 8, 5, 0⟩⟩ "a" "" "" "a" "" "").2⟩

/-- C8: `to_yaml` path resolution. With directory intent (the path string ends
in the separator, or the filesystem holds a directory at the path) the target
is `<path>/<vernomic_id>.yaml`; otherwise the path itself is the target, with
`.yaml` appended exactly when its final name has no extension; in both cases
the "not a directory" error is raised exactly when the resolved target's
parent exists and is not a directory. -/
theorem to_yaml_path_resolution (fs : Fs) (comps : List String) (ts : Bool)
    (id : String) (hid : id ≠ "") :
    ((ts = true ∨ fs comps = FsKind.dir) →
      resolveTarget fs comps ts id =
        (if fs comps ≠ FsKind.absent ∧ fs comps ≠ FsKind.dir
         then .error notDirMsg
         else .ok (comps ++ [id ++ ".yaml"]))) ∧
    (ts = false → fs comps ≠ FsKind.dir →
      ∀ nm, comps.getLast? = some nm →
        resolveTarget fs comps ts id =
          (if fs comps.dropLast ≠ FsKind.absent ∧ fs comps.dropLast ≠ FsKind.dir
           then .error notDirMsg
           else .ok (if hasExt nm then comps
             else comps.dropLast ++ [nm ++ ".yaml"]))) := by
  constructor
  · intro hdir
    have hb : (ts || (fs comps == FsKind.dir)) = true := by
      rcases hdir with h | h
      · simp [h]
      · simp [h]
    unfold resolveTarget
    rw [hb]
    simp only [if_true]
    rw [List.getLast?_concat]
    simp only
    rw [hasExt_append_yaml id hid]
    simp only [if_true, List.dropLast_concat]
  · intro hts hfs nm hnm
    have hb : (ts || (fs comps == FsKind.dir)) = false := by
      subst hts
      simp [hfs]
    unfold resolveTarget
    rw [hb]
    simp only [Bool.false_eq_true, if_false]
    rw [hnm]
    simp only
    by_cases hext : hasExt nm
    · simp [hext]
    · simp [hext, List.dropLast_concat]

/-- C8 witness: the theorem applied to a filesystem whose root is a directory
and a one-component extensionless path. -/
theorem to_yaml_path_resolution_witness :
    ("vid" : String) ≠ "" ∧
    resolveTarget (fun l => if l = [] then FsKind.dir else FsKind.absent)
      ["report"] false "vid" = .ok ["report.yaml"] := by
  constructor
  · decide
  · have h := (to_yaml_path_resolution
      (fun l => if l = [] then FsKind.dir else FsKind.absent)
      ["report"] false "vid" (by decide)).2 rfl (by decide) "report" rfl
    rw [h]
    rfl

end Vernomic
